import Mathlib

/-!
Verification of the object-store adapter in
`velero-plugin-for-microsoft-azure/object_store_preview.go`.

The Go methods of `ObjectStorePreview` are shallowly embedded as Lean
functions.  Calls into the azblob SDK that hit the remote service
(`GetProperties`, `UploadStreamToBlockBlob`, `Download`,
`ListBlobsFlatSegment`, `Delete`) are passed in as explicit function
arguments, so theorems quantify over the behaviour of the remote service;
a Go nil-pointer dereference is modelled by an explicit `nilDeref`
outcome.  `DeleteObject` is run against a small model of the Azure blob
service so that the effect of the delete-snapshots option is visible.
-/

set_option autoImplicit false
set_option linter.unusedVariables false

namespace AzurePlugin

/-- Errors returned through the azblob SDK: either an `azblob.StorageError`
carrying the HTTP status code of the service response, or any other Go
`error` value. -/
inductive GoError : Type where
  | storage (statusCode : Nat) (msg : String)
  | other (msg : String)
deriving DecidableEq

/-- Result of running one adapter method: either the method returns its Go
return values, or it dereferences a nil pointer and the process crashes. -/
inductive GoResult (α : Type) : Type where
  | ret (a : α)
  | nilDeref
deriving DecidableEq

/-- azblob.SharedKeyCredential: an account name and an account key. -/
structure SharedKeyCredential where
  accountName : String
  accountKey : String
deriving DecidableEq

/-- pipeline.Pipeline as built by azblob.NewPipeline from a credential. -/
structure Pipeline where
  credential : SharedKeyCredential
deriving DecidableEq

/-- azblob.ServiceURL: the per-account endpoint URL plus the pipeline. -/
structure ServiceURL where
  url : String
  pipeline : Pipeline
deriving DecidableEq

/-- azblob.ContainerURL, produced by ServiceURL.NewContainerURL. -/
structure ContainerURL where
  service : ServiceURL
  containerName : String
deriving DecidableEq

/-- azblob.BlobURL (also standing for BlockBlobURL), produced by
ContainerURL.NewBlobURL / NewBlockBlobURL. -/
structure BlobURL where
  container : ContainerURL
  blobName : String
deriving DecidableEq

def NewPipeline (cred : SharedKeyCredential) : Pipeline := ⟨cred⟩

def NewServiceURL (u : String) (p : Pipeline) : ServiceURL := ⟨u, p⟩

def NewContainerURL (s : ServiceURL) (bucket : String) : ContainerURL := ⟨s, bucket⟩

def NewBlobURL (c : ContainerURL) (key : String) : BlobURL := ⟨c, key⟩

def NewBlockBlobURL (c : ContainerURL) (key : String) : BlobURL := ⟨c, key⟩

/-- The adapter struct ObjectStorePreview with its two pointer fields;
`none` is a Go nil pointer, the zero value before Init has run. -/
structure ObjectStorePreview where
  pipeline : Option Pipeline
  service : Option ServiceURL
deriving DecidableEq

/-- A Go map[string]string, as an association list. -/
abbrev Config := List (String × String)

/-- Go map indexing: a missing key yields the zero value "". -/
def configGet (config : Config) (k : String) : String :=
  (List.lookup k config).getD ""

/-- Modelled from the spec: the configuration key names (spec section 6);
the Go constants are declared elsewhere in this repository, outside the
provided source file. -/
def resourceGroupConfigKey : String := "resource-group"

/-- Modelled from the spec: see `resourceGroupConfigKey`. -/
def storageAccountConfigKey : String := "storage-account"

/-- Modelled from the spec: see `resourceGroupConfigKey`. -/
def subscriptionIDConfigKey : String := "subscription-id"

/-- Modelled from the spec: see `resourceGroupConfigKey`. -/
def storageAccountKeyEnvVarConfigKey : String := "storage-account-key-env-var"

/-- fmt.Sprintf of the blob_url_suffix format string applied to the
storage-account name. -/
def sprintfBlobURL (account : String) : String :=
  "https://" ++ account ++ ".blob.core.windows.net"

/-- Outcome of Init: a nil error, a non-nil error, or a crash by
nil-pointer dereference. -/
inductive InitOutcome : Type where
  | ok
  | fail (e : GoError)
  | nilDeref
deriving DecidableEq

/-- ObjectStorePreview.Init.  The three collaborator calls
(ValidateObjectStoreConfigKeys, getStorageAccountKey,
azblob.NewSharedKeyCredential) and url.Parse are taken as function
arguments; url.Parse returning `none` stands for the Go `nil, err`
result. -/
def Init
    (validateObjectStoreConfigKeys : Config → List String → Option GoError)
    (getStorageAccountKey : Config → Except GoError String)
    (newSharedKeyCredential : String → String → Except GoError SharedKeyCredential)
    (urlParse : String → Option String)
    (o : ObjectStorePreview) (config : Config) : InitOutcome × ObjectStorePreview :=
  match validateObjectStoreConfigKeys config
      [resourceGroupConfigKey, storageAccountConfigKey,
       subscriptionIDConfigKey, storageAccountKeyEnvVarConfigKey] with
  | some err => (.fail err, o)
  | none =>
    match getStorageAccountKey config with
    | .error err => (.fail err, o)
    | .ok storageAccountKey =>
      match newSharedKeyCredential (configGet config storageAccountConfigKey) storageAccountKey with
      | .error err => (.fail err, o)
      | .ok cred =>
        -- In the source, `u, _ := url.Parse(...)` discards the parse error;
        -- the `if err != nil` that follows re-tests the credential error,
        -- which is nil on this path, so a parse failure falls through to
        -- `azblob.NewServiceURL(*u, pipeline)` and dereferences the nil `u`.
        match urlParse (sprintfBlobURL (configGet config storageAccountConfigKey)) with
        | none => (.nilDeref, o)
        | some u =>
          let pl := NewPipeline cred
          let service := NewServiceURL u pl
          (.ok, ⟨some pl, some service⟩)

/-- ObjectStorePreview.PutObject.  `uploadStreamToBlockBlob` stands for
azblob.UploadStreamToBlockBlob (the response value is discarded by the
source, so it is modelled as Unit). -/
def PutObject {β : Type}
    (uploadStreamToBlockBlob : β → BlobURL → Except GoError Unit)
    (o : ObjectStorePreview) (bucket key : String) (body : β) :
    GoResult (Option GoError) :=
  match o.service with
  | none => .nilDeref   -- o.service.NewContainerURL on a nil pointer
  | some service =>
    let container := NewContainerURL service bucket
    let blobURL := NewBlockBlobURL container key
    match uploadStreamToBlockBlob body blobURL with
    | .error err => .ret (some err)
    | .ok _ => .ret none

/-- The not-found test in ObjectExists: the Go type assertion
`err.(azblob.StorageError)` followed by `Response().StatusCode == 404`. -/
def isStorage404 : GoError → Bool
  | .storage statusCode _ => statusCode == 404
  | .other _ => false

/-- ObjectStorePreview.ObjectExists.  `getProperties` stands for
blob.GetProperties (the properties value itself is unused, so it is
modelled as Unit). -/
def ObjectExists
    (getProperties : BlobURL → Except GoError Unit)
    (o : ObjectStorePreview) (bucket key : String) :
    GoResult (Bool × Option GoError) :=
  match o.service with
  | none => .nilDeref
  | some service =>
    let container := NewContainerURL service bucket
    let blob := NewBlobURL container key
    match getProperties blob with
    | .ok _ => .ret (true, none)
    | .error err =>
      if isStorage404 err then .ret (false, none)
      else .ret (false, some err)

/-- ObjectStorePreview.GetObject.  `download` stands for blobURL.Download
followed by response.Body, returning the body stream of type γ. -/
def GetObject {γ : Type}
    (download : BlobURL → Except GoError γ)
    (o : ObjectStorePreview) (bucket key : String) :
    GoResult (Option γ × Option GoError) :=
  match o.service with
  | none => .nilDeref
  | some service =>
    let container := NewContainerURL service bucket
    let blobURL := NewBlockBlobURL container key
    match download blobURL with
    | .error err => .ret (none, some err)
    | .ok response => .ret (some response, none)

/-- ObjectStorePreview.ListCommonPrefixes: returns make([]string, 0) and a
nil error; the function is not implemented and never touches o.service. -/
def ListCommonPrefixes (o : ObjectStorePreview) (bucket pfx delimiter : String) :
    List String × Option GoError :=
  (([] : List String), none)

/-- ObjectStorePreview.CreateSignedURL: returns the empty string and
errors.New("Not Implemented") for every input. -/
def CreateSignedURL (o : ObjectStorePreview) (bucket key : String) (ttl : Int) :
    String × Option GoError :=
  ("", some (GoError.other "Not Implemented"))

/-- azblob.Marker: `none` is the zero Marker, whose Val field is nil. -/
abbrev Marker := Option String

/-- Marker.NotDone(): Val == nil, or *Val different from the empty string. -/
def markerNotDone : Marker → Bool
  | none => true
  | some s => !(s == "")

/-- One response of ListBlobsFlatSegment: the continuation marker and the
names of the blob items in the segment. -/
structure FlatSegment where
  nextMarker : Marker
  blobItems : List String
deriving DecidableEq

/-- Index of the first position of `sub` in a character list, if any. -/
def indexOfAux (sub : List Char) : List Char → Option Nat
  | [] => if List.isPrefixOf sub [] then some 0 else none
  | c :: rest =>
    if List.isPrefixOf sub (c :: rest) then some 0
    else (indexOfAux sub rest).map (· + 1)

/-- Go strings.Index(s, sub): the index of the first occurrence of sub in
s, or -1 when sub does not occur (0 when sub is empty). -/
def stringsIndex (s sub : String) : Int :=
  match indexOfAux sub.data s.data with
  | some n => (n : Int)
  | none => -1

/-- The filter condition in ListObjects:
`prefix == "" || strings.Index(blobInfo.Name, prefix) == 0`. -/
def goMatch (pfx name : String) : Bool :=
  (pfx == "") || (stringsIndex name pfx == 0)

/-- The marker loop of ListObjects.  The list argument holds the successive
ListBlobsFlatSegment responses of the remote, one per fetch; the loop
stops when the marker reports done (for a well-formed remote the response
list is exhausted exactly then). -/
def listLoop (pfx : String) :
    List (Except GoError FlatSegment) → Marker → List String →
    List String × Option GoError
  | [], _, objects => (objects, none)
  | resp :: rest, marker, objects =>
    if markerNotDone marker then
      match resp with
      | .error err => ([], some err)   -- Go: return nil, err
      | .ok seg =>
        listLoop pfx rest seg.nextMarker
          (objects ++ seg.blobItems.filter (goMatch pfx))
    else (objects, none)

/-- ObjectStorePreview.ListObjects.  `listBlobsFlatSegment` gives, per
container, the successive responses the remote will return; the loop
starts from the zero Marker. -/
def ListObjects
    (listBlobsFlatSegment : ContainerURL → List (Except GoError FlatSegment))
    (o : ObjectStorePreview) (bucket pfx : String) :
    GoResult (List String × Option GoError) :=
  match o.service with
  | none => .nilDeref
  | some service =>
    let container := NewContainerURL service bucket
    .ret (listLoop pfx (listBlobsFlatSegment container) none [])

/-- The azblob.DeleteSnapshotsOption values; the source passes
DeleteSnapshotsOptionNone (`optNone`). -/
inductive DeleteSnapshotsOption : Type where
  | optNone
  | optInclude
  | optOnly
deriving DecidableEq

/-- The remote store visible to DeleteObject: for each
(container name, blob name) pair, the number of snapshots the blob has. -/
abbrev RemoteStore := List ((String × String) × Nat)

/-- Model of the Azure blob Delete call with the x-ms-delete-snapshots
option: a missing blob yields 404; with option none, a blob that has
snapshots yields 409 and nothing is deleted, a blob without snapshots is
removed; with option include the blob and its snapshots are removed; with
option only just the snapshots are removed. -/
def azureDelete (store : RemoteStore) (blob : BlobURL) (opt : DeleteSnapshotsOption) :
    Except GoError Unit × RemoteStore :=
  let k := (blob.container.containerName, blob.blobName)
  match List.lookup k store with
  | none => (.error (GoError.storage 404 "The specified blob does not exist."), store)
  | some snaps =>
    match opt with
    | .optNone =>
      if snaps == 0 then (.ok (), store.filter (fun entry => !(entry.1 == k)))
      else (.error (GoError.storage 409 "This operation is not permitted because the blob has snapshots."), store)
    | .optInclude => (.ok (), store.filter (fun entry => !(entry.1 == k)))
    | .optOnly => (.ok (), store.map (fun entry => if entry.1 == k then (entry.1, 0) else entry))

/-- ObjectStorePreview.DeleteObject, run against the modelled remote:
`blobURL.Delete(ctx, azblob.DeleteSnapshotsOptionNone, ...)` becomes
`azureDelete store blobURL .optNone`. -/
def DeleteObject (store : RemoteStore) (o : ObjectStorePreview) (bucket key : String) :
    GoResult (Option GoError) × RemoteStore :=
  match o.service with
  | none => (.nilDeref, store)
  | some service =>
    let container := NewContainerURL service bucket
    let blobURL := NewBlockBlobURL container key
    match azureDelete store blobURL DeleteSnapshotsOption.optNone with
    | (.error err, s) => (.ret (some err), s)
    | (.ok _, s) => (.ret none, s)

/-!
Concrete fixtures, used by witnesses and counterexamples below.
-/

/-- A model of url.Parse for the bug evidence: net/url rejects URLs that
contain an ASCII control character, returning a nil URL and an error. -/
def urlParseModel (s : String) : Option String :=
  if s.data.any (fun c => c.toNat < 32) then none else some s

/-- A validation collaborator that accepts every config. -/
def validateOk : Config → List String → Option GoError := fun _ _ => none

/-- A validation collaborator that rejects every config. -/
def validateFail : Config → List String → Option GoError :=
  fun _ _ => some (GoError.other "missing required key")

/-- A key-resolution collaborator that always yields a key. -/
def getKeyOk : Config → Except GoError String := fun _ => .ok "c2VjcmV0"

/-- A credential collaborator that always succeeds. -/
def newCredOk : String → String → Except GoError SharedKeyCredential :=
  fun name key => .ok ⟨name, key⟩

/-- A config whose storage-account value contains a control character, so
the per-account endpoint URL cannot be parsed. -/
def badAccountConfig : Config :=
  [("resource-group", "rg"), ("storage-account", "acct\n"),
   ("subscription-id", "sub"), ("storage-account-key-env-var", "KEY")]

/-- A concrete service handle for an initialized adapter. -/
def svc0 : ServiceURL := ⟨"https://acct.blob.core.windows.net", ⟨⟨"acct", "c2VjcmV0"⟩⟩⟩

/-- An initialized adapter (both handles set). -/
def ready0 : ObjectStorePreview := ⟨some ⟨⟨"acct", "c2VjcmV0"⟩⟩, some svc0⟩

/-- A remote probe that reports not-found for every blob. -/
def gp404 : BlobURL → Except GoError Unit :=
  fun _ => .error (GoError.storage 404 "The specified blob does not exist.")

/-- A remote holding one blob that has one snapshot. -/
def store0 : RemoteStore := [(("bucket", "key"), 1)]

/-- A remote holding one blob without snapshots. -/
def store1 : RemoteStore := [(("bucket", "key"), 0)]

/-- Two listing pages: the first with a continuation marker, the second
final. -/
def segs0 : List FlatSegment := [⟨some "m1", ["a/1", "b/2"]⟩, ⟨some "", ["a/3"]⟩]

/-- One successful listing page with a continuation marker. -/
def pre1 : List FlatSegment := [⟨some "m1", ["a/1"]⟩]

/-!
Theorems.
-/

/-- C6: for every bucket, prefix, and delimiter, ListCommonPrefixes
returns the empty sequence and a nil error. -/
theorem listCommonPrefixes_spec (o : ObjectStorePreview) (bucket pfx delimiter : String) :
    ListCommonPrefixes o bucket pfx delimiter = ([], none) := rfl

/-- C7: for every bucket, key, and ttl, CreateSignedURL returns no URL and
the fixed "Not Implemented" error. -/
theorem createSignedURL_spec (o : ObjectStorePreview) (bucket key : String) (ttl : Int) :
    CreateSignedURL o bucket key ttl = ("", some (GoError.other "Not Implemented")) := rfl

/-- C9 (amended): every operation other than Init (PutObject,
ObjectExists, GetObject, ListObjects, DeleteObject), called while the
adapter is Uninitialized (service handle nil), dereferences the nil
service handle and crashes; it does not proceed to issue a remote call. -/
theorem uninit_ops_nilDeref_spec {β γ : Type}
    (upload : β → BlobURL → Except GoError Unit) (body : β)
    (download : BlobURL → Except GoError γ)
    (getProperties : BlobURL → Except GoError Unit)
    (listBlobsFlatSegment : ContainerURL → List (Except GoError FlatSegment))
    (store : RemoteStore) (pl : Option Pipeline) (bucket key pfx : String) :
    PutObject upload ⟨pl, none⟩ bucket key body = .nilDeref ∧
    ObjectExists getProperties ⟨pl, none⟩ bucket key = .nilDeref ∧
    GetObject download ⟨pl, none⟩ bucket key = .nilDeref ∧
    ListObjects listBlobsFlatSegment ⟨pl, none⟩ bucket pfx = .nilDeref ∧
    (DeleteObject store ⟨pl, none⟩ bucket key).1 = .nilDeref :=
  ⟨rfl, rfl, rfl, rfl, rfl⟩

/-- C9 counterexample: on the Uninitialized adapter, PutObject does
dereference the absent client handle (the nilDeref outcome), so it does
not fail fast with an error as the claim states. -/
theorem uninit_putObject_counterexample :
    PutObject (fun (_ : Unit) (_ : BlobURL) => Except.ok ()) ⟨none, none⟩
      "bucket" "key" () = GoResult.nilDeref := rfl

/-- C2: when the per-account endpoint URL cannot be parsed (here the
storage-account value contains a control character), Init does not return
an error at all: the source discards the url.Parse error, and
NewServiceURL(*u, pipeline) dereferences the nil URL pointer. -/
theorem init_parse_error_dropped :
    urlParseModel (sprintfBlobURL (configGet badAccountConfig storageAccountConfigKey)) = none ∧
    Init validateOk getKeyOk newCredOk urlParseModel ⟨none, none⟩ badAccountConfig
      = (InitOutcome.nilDeref, ⟨none, none⟩) :=
  ⟨rfl, rfl⟩

/-- C3 counterexample: on a blob that has one snapshot, DeleteObject
(which passes DeleteSnapshotsOptionNone) returns a 409 error and leaves
both the blob and its snapshot in place, so it does not delete the object
together with its snapshots. -/
theorem deleteObject_snapshots_counterexample :
    (DeleteObject store0 ready0 "bucket" "key").1
        = GoResult.ret (some (GoError.storage 409
            "This operation is not permitted because the blob has snapshots.")) ∧
    List.lookup ("bucket", "key") (DeleteObject store0 ready0 "bucket" "key").2 = some 1 :=
  ⟨rfl, rfl⟩

/-- A GoError classifies as storage-404 exactly when it is a StorageError
whose response status code is 404. -/
theorem isStorage404_eq_true (e : GoError) :
    isStorage404 e = true ↔ ∃ msg, e = GoError.storage 404 msg := by
  cases e with
  | storage code msg =>
    simp only [isStorage404, beq_iff_eq]
    constructor
    · intro h; exact ⟨msg, by rw [h]⟩
    · rintro ⟨msg2, hm⟩
      cases hm
      rfl
  | other msg => simp [isStorage404]

/-- C1: ObjectExists returns (true, nil) when the metadata probe succeeds;
given a failed probe, it returns (false, nil) exactly when the error is a
storage error with status 404; any other probe failure is surfaced as the
error, not as a false-without-error result. -/
theorem objectExists_result_spec
    (getProperties : BlobURL → Except GoError Unit)
    (pl : Option Pipeline) (svc : ServiceURL) (bucket key : String) :
    (getProperties (NewBlobURL (NewContainerURL svc bucket) key) = Except.ok () →
      ObjectExists getProperties ⟨pl, some svc⟩ bucket key = .ret (true, none)) ∧
    (∀ e, getProperties (NewBlobURL (NewContainerURL svc bucket) key) = .error e →
      (ObjectExists getProperties ⟨pl, some svc⟩ bucket key = .ret (false, none) ↔
        isStorage404 e = true)) ∧
    (∀ e, getProperties (NewBlobURL (NewContainerURL svc bucket) key) = .error e →
      isStorage404 e = false →
      ObjectExists getProperties ⟨pl, some svc⟩ bucket key = .ret (false, some e)) := by
  refine ⟨?_, ?_, ?_⟩
  · intro h
    simp [ObjectExists, h]
  · intro e h
    by_cases h4 : isStorage404 e = true
    · simp [ObjectExists, h, h4]
    · rw [Bool.not_eq_true] at h4
      simp [ObjectExists, h, h4]
  · intro e h h4
    simp [ObjectExists, h, h4]

/-- C1 witness: a probe failing with a storage 404 yields (false, nil). -/
theorem objectExists_result_spec_witness :
    ObjectExists gp404 ⟨none, some svc0⟩ "bucket" "key" = .ret (false, none) :=
  ((objectExists_result_spec gp404 none svc0 "bucket" "key").2.1
    (GoError.storage 404 "The specified blob does not exist.") rfl).mpr rfl

/-- C10: the two components of the ObjectExists result are linked — it is
never (true, some error); a returned non-nil error forces a false boolean;
and (false, nil) arises only when the probe reported a storage 404. -/
theorem objectExists_invariant_spec
    (getProperties : BlobURL → Except GoError Unit)
    (pl : Option Pipeline) (svc : ServiceURL) (bucket key : String) :
    (∀ e, ObjectExists getProperties ⟨pl, some svc⟩ bucket key ≠ .ret (true, some e)) ∧
    (∀ b e, ObjectExists getProperties ⟨pl, some svc⟩ bucket key = .ret (b, some e) →
      b = false) ∧
    (ObjectExists getProperties ⟨pl, some svc⟩ bucket key = .ret (false, none) →
      ∃ msg, getProperties (NewBlobURL (NewContainerURL svc bucket) key)
        = .error (GoError.storage 404 msg)) := by
  cases hgp : getProperties (NewBlobURL (NewContainerURL svc bucket) key) with
  | ok u =>
    have hres : ObjectExists getProperties ⟨pl, some svc⟩ bucket key = .ret (true, none) := by
      simp [ObjectExists, hgp]
    refine ⟨?_, ?_, ?_⟩
    · intro e2
      rw [hres]
      simp
    · intro b e2 hb
      cases b with
      | false => rfl
      | true => rw [hres] at hb; exact absurd hb (by simp)
    · intro hb
      rw [hres] at hb
      exact absurd hb (by simp)
  | error e =>
    by_cases h4 : isStorage404 e = true
    · obtain ⟨msg, hm⟩ := (isStorage404_eq_true e).mp h4
      have hres : ObjectExists getProperties ⟨pl, some svc⟩ bucket key = .ret (false, none) := by
        simp [ObjectExists, hgp, h4]
      refine ⟨?_, ?_, ?_⟩
      · intro e2
        rw [hres]
        simp
      · intro b e2 hb
        cases b with
        | false => rfl
        | true => rw [hres] at hb; exact absurd hb (by simp)
      · intro _
        exact ⟨msg, congrArg Except.error hm⟩
    · rw [Bool.not_eq_true] at h4
      have hres : ObjectExists getProperties ⟨pl, some svc⟩ bucket key = .ret (false, some e) := by
        simp [ObjectExists, hgp, h4]
      refine ⟨?_, ?_, ?_⟩
      · intro e2
        rw [hres]
        simp
      · intro b e2 hb
        cases b with
        | false => rfl
        | true => rw [hres] at hb; exact absurd hb (by simp)
      · intro hb
        rw [hres] at hb
        exact absurd hb (by simp)

/-- C10 witness: from a concrete (false, nil) result, recover the storage
404 probe outcome. -/
theorem objectExists_invariant_spec_witness :
    ∃ msg, gp404 (NewBlobURL (NewContainerURL svc0 "bucket") "key")
      = .error (GoError.storage 404 msg) :=
  (objectExists_invariant_spec gp404 none svc0 "bucket" "key").2.2 rfl

/-- C8: if Init returns an error — which happens exactly when validation
rejects the config, key resolution fails, or credential construction
fails — the adapter state is unchanged (so a previously Uninitialized
adapter stays Uninitialized, with no client handle stored); if Init
succeeds, both the pipeline and the service handle are set. -/
theorem init_state_spec
    (validate : Config → List String → Option GoError)
    (getKey : Config → Except GoError String)
    (newCred : String → String → Except GoError SharedKeyCredential)
    (urlParse : String → Option String)
    (o : ObjectStorePreview) (config : Config) :
    ((Init validate getKey newCred urlParse o config).1 = InitOutcome.ok →
      ∃ pl svc, (Init validate getKey newCred urlParse o config).2 = ⟨some pl, some svc⟩) ∧
    (∀ e, (Init validate getKey newCred urlParse o config).1 = InitOutcome.fail e →
      (Init validate getKey newCred urlParse o config).2 = o) ∧
    (∀ e, validate config [resourceGroupConfigKey, storageAccountConfigKey,
        subscriptionIDConfigKey, storageAccountKeyEnvVarConfigKey] = some e →
      Init validate getKey newCred urlParse o config = (.fail e, o)) ∧
    (validate config [resourceGroupConfigKey, storageAccountConfigKey,
        subscriptionIDConfigKey, storageAccountKeyEnvVarConfigKey] = none →
      ∀ e, getKey config = .error e →
      Init validate getKey newCred urlParse o config = (.fail e, o)) ∧
    (validate config [resourceGroupConfigKey, storageAccountConfigKey,
        subscriptionIDConfigKey, storageAccountKeyEnvVarConfigKey] = none →
      ∀ k, getKey config = .ok k →
      ∀ e, newCred (configGet config storageAccountConfigKey) k = .error e →
      Init validate getKey newCred urlParse o config = (.fail e, o)) := by
  cases hv : validate config [resourceGroupConfigKey, storageAccountConfigKey,
      subscriptionIDConfigKey, storageAccountKeyEnvVarConfigKey] with
  | some e =>
    refine ⟨?_, ?_, ?_, ?_, ?_⟩
    · intro h
      simp [Init, hv] at h
    · intro e2 h
      simp [Init, hv]
    · intro e2 h2
      cases h2
      simp [Init, hv]
    · intro h
      cases h
    · intro h
      cases h
  | none =>
    cases hk : getKey config with
    | error e =>
      refine ⟨?_, ?_, ?_, ?_, ?_⟩
      · intro h
        simp [Init, hv, hk] at h
      · intro e2 h
        simp [Init, hv, hk]
      · intro e2 h2
        cases h2
      · intro _ e2 h2
        cases h2
        simp [Init, hv, hk]
      · intro _ k hcontra
        cases hcontra
    | ok k =>
      cases hc : newCred (configGet config storageAccountConfigKey) k with
      | error e =>
        refine ⟨?_, ?_, ?_, ?_, ?_⟩
        · intro h
          simp [Init, hv, hk, hc] at h
        · intro e2 h
          simp [Init, hv, hk, hc]
        · intro e2 h2
          cases h2
        · intro _ e2 h2
          cases h2
        · intro _ k2 hk2 e2 hc2
          cases hk2
          cases hc2.symm.trans hc
          simp [Init, hv, hk, hc]
      | ok cred =>
        cases hu : urlParse (sprintfBlobURL (configGet config storageAccountConfigKey)) with
        | none =>
          refine ⟨?_, ?_, ?_, ?_, ?_⟩
          · intro h
            simp [Init, hv, hk, hc, hu] at h
          · intro e2 h
            simp [Init, hv, hk, hc, hu] at h
          · intro e2 h2
            cases h2
          · intro _ e2 h2
            cases h2
          · intro _ k2 hk2 e2 hc2
            cases hk2
            cases hc2.symm.trans hc
        | some u =>
          refine ⟨?_, ?_, ?_, ?_, ?_⟩
          · intro _
            refine ⟨NewPipeline cred, NewServiceURL u (NewPipeline cred), ?_⟩
            simp [Init, hv, hk, hc, hu]
          · intro e2 h
            simp [Init, hv, hk, hc, hu] at h
          · intro e2 h2
            cases h2
          · intro _ e2 h2
            cases h2
          · intro _ k2 hk2 e2 hc2
            cases hk2
            cases hc2.symm.trans hc

/-- C8 witness: a rejected config leaves the Uninitialized adapter
unchanged. -/
theorem init_state_spec_witness :
    (Init validateFail getKeyOk newCredOk urlParseModel ⟨none, none⟩ []).2 = ⟨none, none⟩ :=
  (init_state_spec validateFail getKeyOk newCredOk urlParseModel ⟨none, none⟩ []).2.1
    (GoError.other "missing required key") rfl

/-- Removing every entry of a key from an association list makes lookup of
that key fail. -/
theorem lookup_filter_ne {α β : Type} [BEq α] [LawfulBEq α] (k : α) (l : List (α × β)) :
    List.lookup k (l.filter (fun entry => !(entry.1 == k))) = none := by
  induction l with
  | nil => rfl
  | cons a t ih =>
    cases ha : (a.1 == k) with
    | true =>
      simp [List.filter, ha, ih]
    | false =>
      have hk : (k == a.1) = false := by
        rw [beq_eq_false_iff_ne] at ha ⊢
        exact fun h => ha h.symm
      simp [List.filter, List.lookup, ha, hk, ih]

/-- C3 (amended): DeleteObject issues the delete with
DeleteSnapshotsOptionNone, so against the modelled remote it deletes the
object only when the object has no snapshots; it fails with a StoreError
when the object does not exist (404) or when the object has snapshots
(409, leaving the object and its snapshots in place), and any error of the
remote delete call is returned to the caller. -/
theorem deleteObject_spec (store : RemoteStore) (pl : Option Pipeline) (svc : ServiceURL)
    (bucket key : String) :
    (List.lookup (bucket, key) store = none →
      DeleteObject store ⟨pl, some svc⟩ bucket key
        = (.ret (some (GoError.storage 404 "The specified blob does not exist.")), store)) ∧
    (List.lookup (bucket, key) store = some 0 →
      (DeleteObject store ⟨pl, some svc⟩ bucket key).1 = .ret none ∧
      List.lookup (bucket, key) (DeleteObject store ⟨pl, some svc⟩ bucket key).2 = none) ∧
    (∀ n, List.lookup (bucket, key) store = some (n + 1) →
      DeleteObject store ⟨pl, some svc⟩ bucket key
        = (.ret (some (GoError.storage 409
            "This operation is not permitted because the blob has snapshots.")), store)) ∧
    (∀ e s, azureDelete store (NewBlockBlobURL (NewContainerURL svc bucket) key)
        DeleteSnapshotsOption.optNone = (.error e, s) →
      (DeleteObject store ⟨pl, some svc⟩ bucket key).1 = .ret (some e)) := by
  refine ⟨?_, ?_, ?_, ?_⟩
  · intro h
    simp [DeleteObject, azureDelete, NewBlockBlobURL, NewContainerURL, h]
  · intro h
    constructor
    · simp [DeleteObject, azureDelete, NewBlockBlobURL, NewContainerURL, h]
    · have h2 : (DeleteObject store ⟨pl, some svc⟩ bucket key).2
          = store.filter (fun entry => !(entry.1 == (bucket, key))) := by
        simp [DeleteObject, azureDelete, NewBlockBlobURL, NewContainerURL, h]
      rw [h2]
      exact lookup_filter_ne (bucket, key) store
  · intro n h
    simp [DeleteObject, azureDelete, NewBlockBlobURL, NewContainerURL, h]
  · intro e s h
    simp [DeleteObject, h]

/-- C3 witness: deleting a blob without snapshots succeeds and removes it
from the remote. -/
theorem deleteObject_spec_witness :
    (DeleteObject store1 ready0 "bucket" "key").1 = .ret none ∧
    List.lookup ("bucket", "key") (DeleteObject store1 ready0 "bucket" "key").2 = none :=
  (deleteObject_spec store1 (some ⟨⟨"acct", "c2VjcmV0"⟩⟩) svc0 "bucket" "key").2.1 rfl

/-- Bridge between the Bool prefix test on character lists and the prefix
relation. -/
theorem isPrefixOf_eq (l₁ l₂ : List Char) : List.isPrefixOf l₁ l₂ = true ↔ l₁ <+: l₂ :=
  List.isPrefixOf_iff_prefix

/-- indexOfAux finds index 0 exactly when the pattern is a prefix. -/
theorem indexOfAux_eq_zero (sub s : List Char) :
    indexOfAux sub s = some 0 ↔ sub <+: s := by
  cases s with
  | nil =>
    by_cases h : sub <+: ([] : List Char)
    · have hb : List.isPrefixOf sub ([] : List Char) = true := (isPrefixOf_eq sub []).mpr h
      simp [indexOfAux, hb, h]
    · have hb : List.isPrefixOf sub ([] : List Char) = false := by
        cases hB : List.isPrefixOf sub ([] : List Char) with
        | false => rfl
        | true => exact absurd ((isPrefixOf_eq sub []).mp hB) h
      simp [indexOfAux, hb, h]
  | cons c rest =>
    by_cases h : sub <+: (c :: rest)
    · have hb : List.isPrefixOf sub (c :: rest) = true := (isPrefixOf_eq sub (c :: rest)).mpr h
      simp [indexOfAux, hb, h]
    · have hb : List.isPrefixOf sub (c :: rest) = false := by
        cases hB : List.isPrefixOf sub (c :: rest) with
        | false => rfl
        | true => exact absurd ((isPrefixOf_eq sub (c :: rest)).mp hB) h
      simp [indexOfAux, hb, h, Option.map_eq_some']

/-- The Go filter condition of ListObjects holds exactly when the prefix
argument is a literal string prefix of the blob name (the empty prefix
matching every name). -/
theorem goMatch_iff (pfx name : String) :
    goMatch pfx name = true ↔ pfx.data <+: name.data := by
  unfold goMatch stringsIndex
  by_cases hp : pfx = ""
  · subst hp
    simp
  · have hb : (pfx == "") = false := beq_eq_false_iff_ne.mpr hp
    rw [hb]
    simp only [Bool.false_or]
    cases hIdx : indexOfAux pfx.data name.data with
    | none =>
      simp only [hIdx]
      constructor
      · intro hcontra
        exact absurd hcontra (by decide)
      · intro hpre
        have h0 := (indexOfAux_eq_zero pfx.data name.data).mpr hpre
        rw [hIdx] at h0
        cases h0
    | some n =>
      simp only [hIdx]
      constructor
      · intro h0
        have hn : n = 0 := by
          have h2 : (n : Int) = 0 := by
            have h3 : ((n : Int) == 0) = true := h0
            exact eq_of_beq h3
          exact_mod_cast h2
        apply (indexOfAux_eq_zero pfx.data name.data).mp
        rw [hIdx, hn]
      · intro hpre
        have h0 := (indexOfAux_eq_zero pfx.data name.data).mpr hpre
        rw [hIdx] at h0
        injection h0 with h0
        rw [h0]
        decide

/-- Running the marker loop over a run of successful pages whose markers
chain through (every page except the last reports not-done) accumulates
the filtered names of every page. -/
theorem listLoop_all_ok (pfx : String) (segs : List FlatSegment) :
    ∀ (marker : Marker) (objects : List String),
      (segs ≠ [] → markerNotDone marker = true) →
      (∀ seg ∈ segs.dropLast, markerNotDone seg.nextMarker = true) →
      listLoop pfx (segs.map Except.ok) marker objects =
        (objects ++ ((segs.map FlatSegment.blobItems).flatten).filter (goMatch pfx), none) := by
  induction segs with
  | nil =>
    intro marker objects _ _
    simp [listLoop]
  | cons s rest ih =>
    intro marker objects hm hrest
    have hmd : markerNotDone marker = true := hm (by simp)
    cases rest with
    | nil =>
      simp [listLoop, hmd]
    | cons s2 rest2 =>
      have h1 : markerNotDone s.nextMarker = true := by
        apply hrest
        simp
      have h2 : ∀ seg ∈ (s2 :: rest2).dropLast, markerNotDone seg.nextMarker = true := by
        intro seg hseg
        apply hrest
        simp only [List.dropLast_cons₂, List.mem_cons]
        exact Or.inr hseg
      have := ih s.nextMarker (objects ++ s.blobItems.filter (goMatch pfx))
        (fun _ => h1) h2
      simp only [List.map_cons, listLoop, hmd, if_true] at this ⊢
      rw [this]
      simp [List.filter_append]

/-- C4: with an initialized adapter and no failing page fetch, ListObjects
returns exactly the names of the listed pages that pass the literal
string-prefix test, accumulated across all pages in order, and empty when
nothing matches. -/
theorem listObjects_all_pages_spec (pl : Option Pipeline) (svc : ServiceURL)
    (segs : List FlatSegment) (bucket pfx : String)
    (hchain : ∀ seg ∈ segs.dropLast, markerNotDone seg.nextMarker = true) :
    ListObjects (fun _ => segs.map Except.ok) ⟨pl, some svc⟩ bucket pfx
      = .ret (((segs.map FlatSegment.blobItems).flatten).filter (goMatch pfx), none) ∧
    ∀ name, name ∈ ((segs.map FlatSegment.blobItems).flatten).filter (goMatch pfx) ↔
      (name ∈ (segs.map FlatSegment.blobItems).flatten ∧ pfx.data <+: name.data) := by
  constructor
  · have h := listLoop_all_ok pfx segs none [] (fun _ => rfl) hchain
    simp only [ListObjects]
    rw [h]
    simp
  · intro name
    rw [List.mem_filter]
    constructor
    · rintro ⟨h1, h2⟩
      exact ⟨h1, (goMatch_iff pfx name).mp h2⟩
    · rintro ⟨h1, h2⟩
      exact ⟨h1, (goMatch_iff pfx name).mpr h2⟩

/-- C4 witness: two pages, a continuation marker in between, a nonempty
prefix; the matching keys of both pages are returned. -/
theorem listObjects_all_pages_spec_witness :
    ListObjects (fun _ => segs0.map Except.ok) ⟨none, some svc0⟩ "bucket" "a/"
      = .ret (["a/1", "a/3"], none) :=
  ((listObjects_all_pages_spec none svc0 segs0 "bucket" "a/" (by decide)).1).trans (by decide)

/-- Running the marker loop into a failing fetch (after a chain of
successful not-done pages) yields the error and discards everything
accumulated. -/
theorem listLoop_error (pfx : String) (e : GoError) (post : List (Except GoError FlatSegment))
    (pre : List FlatSegment) :
    ∀ (marker : Marker) (objects : List String),
      markerNotDone marker = true →
      (∀ seg ∈ pre, markerNotDone seg.nextMarker = true) →
      listLoop pfx (pre.map Except.ok ++ Except.error e :: post) marker objects
        = ([], some e) := by
  induction pre with
  | nil =>
    intro marker objects hm _
    simp [listLoop, hm]
  | cons s rest ih =>
    intro marker objects hm hall
    simp only [List.map_cons, List.cons_append, listLoop, hm, if_true]
    exact ih s.nextMarker (objects ++ s.blobItems.filter (goMatch pfx))
      (hall s (by simp)) (fun seg hseg => hall seg (by simp [hseg]))

/-- C5: if some page fetch fails (all pages before it succeeded with
not-done markers), ListObjects returns the error and no partial result:
keys accumulated from the earlier pages are discarded. -/
theorem listObjects_page_error_spec (pl : Option Pipeline) (svc : ServiceURL)
    (bucket pfx : String) (pre : List FlatSegment) (e : GoError)
    (post : List (Except GoError FlatSegment))
    (hpre : ∀ seg ∈ pre, markerNotDone seg.nextMarker = true) :
    ListObjects (fun _ => pre.map Except.ok ++ Except.error e :: post) ⟨pl, some svc⟩ bucket pfx
      = .ret ([], some e) := by
  simp only [ListObjects]
  rw [listLoop_error pfx e post pre none [] rfl hpre]

/-- C5 witness: the first page succeeds and matches a key, the second
fetch fails; the matched key is discarded and only the error returned. -/
theorem listObjects_page_error_spec_witness :
    ListObjects (fun _ => pre1.map Except.ok ++ Except.error (GoError.other "boom") :: [])
      ⟨none, some svc0⟩ "bucket" "a/" = .ret ([], some (GoError.other "boom")) :=
  listObjects_page_error_spec none svc0 "bucket" "a/" pre1 (GoError.other "boom") []
    (by decide)

end AzurePlugin
